import Mathlib

/-!
Verification of the S3 file-size checker (handler.py).

The handler is embedded shallowly.  The ambient S3 client becomes a
`Backend` of response functions; every remote call and every log emission
is recorded in order as an `Effect`; `processRecord` is the body of the
loop of `lambda_handler` for one record, and `lambda_handler` folds over
the batch, stopping at the first failed call exactly as an uncaught
Python exception would.  Python floats are modelled by rationals, so
`round(x, 6)` becomes rounding a rational to six decimal places with
ties to even, and `print(json.dumps data)` is modelled by the
`Effect.logJson` constructor carrying the structured record the code
writes to standard output.
-/

namespace S3Checker

/-- Decimal value of one hexadecimal digit, `none` when the character is
not a hex digit; this is the digit test used by percent-decoding in
`urllib.parse.unquote`. -/
def hexDigitVal (c : Char) : Option Nat :=
  if Char.toNat '0' ≤ c.toNat ∧ c.toNat ≤ Char.toNat '9' then
    some (c.toNat - Char.toNat '0')
  else if Char.toNat 'a' ≤ c.toNat ∧ c.toNat ≤ Char.toNat 'f' then
    some (c.toNat - Char.toNat 'a' + 10)
  else if Char.toNat 'A' ≤ c.toNat ∧ c.toNat ≤ Char.toNat 'F' then
    some (c.toNat - Char.toNat 'A' + 10)
  else none

/-- One left-to-right pass of `urllib.parse.unquote_plus` over the
characters: a plus sign becomes a space, a percent sign followed by two
hex digits becomes the character with that code, any other character is
kept; a percent sign not followed by two hex digits is kept literally.
Decoded output is never rescanned, so decoding happens exactly once. -/
def unquotePlusChars : List Char → List Char
  | [] => []
  | '+' :: rest => ' ' :: unquotePlusChars rest
  | '%' :: a :: b :: rest2 =>
    match hexDigitVal a, hexDigitVal b with
    | some ha, some hb => Char.ofNat (16 * ha + hb) :: unquotePlusChars rest2
    | _, _ => '%' :: unquotePlusChars (a :: b :: rest2)
  | c :: rest => c :: unquotePlusChars rest

/-- `urllib.parse.unquote_plus` on strings (ASCII fragment, which covers
every key this development inspects). -/
def unquote_plus (s : String) : String := ⟨unquotePlusChars s.data⟩

/-- Line 25 of handler.py: `record["s3"]["object"]["key"].replace("+", " ")`.
Its value is overwritten by the reassignment on line 27 and never used. -/
def key_line25 (rawKey : String) : String := rawKey.replace "+" " "

/-- Line 27 of handler.py: `key = unquote_plus(record["s3"]["object"]["key"])`,
applied to the raw transport key, discarding the value from line 25. -/
def decoded_key (rawKey : String) : String := unquote_plus rawKey

/-- `MAX_SIZE_BYTES = 10 * 1024 * 1024` (handler.py line 8). -/
def MAX_SIZE_BYTES : Nat := 10 * 1024 * 1024

/-- `PRICE_PER_GB_MONTH = 0.023` (handler.py line 11), as a rational. -/
def PRICE_PER_GB_MONTH : ℚ := 23 / 1000

/-- `size_gb = size_bytes / (1024 ** 3); monthly_cost_usd = size_gb *
PRICE_PER_GB_MONTH` (handler.py lines 34 and 35), at full precision. -/
def monthly_cost_usd (size_bytes : Nat) : ℚ :=
  (size_bytes : ℚ) / 1024 ^ 3 * PRICE_PER_GB_MONTH

/-- Floor of a rational as an integer, computed from its reduced
numerator and denominator. -/
def ratFloor (q : ℚ) : ℤ := q.num.fdiv q.den

/-- Round a rational to the nearest integer, ties to even, matching the
rounding mode of Python `round`. -/
def roundHalfToEven (q : ℚ) : ℤ :=
  let n := ratFloor q
  let frac := q - (n : ℚ)
  if frac < 1 / 2 then n
  else if (1 : ℚ) / 2 < frac then n + 1
  else if n % 2 = 0 then n else n + 1

/-- `round(x, 6)`: round to six decimal places, ties to even. -/
def pyRound6 (q : ℚ) : ℚ := ((roundHalfToEven (q * 1000000) : ℤ) : ℚ) / 1000000

/-- A JSON-like value, the shape of the dictionaries handed to `log`. -/
inductive JVal where
  | jstr (s : String)
  | jnum (q : ℚ)
  | jnat (n : Nat)
  | jobj (fields : List (String × JVal))

/-- One record of `event["Records"]`: bucket name and the raw
(transport-encoded) object key. -/
structure S3Record where
  bucket : String
  key : String

/-- Responses of the S3 backend to the three calls the handler makes;
an `Except.error` models the call raising an exception. -/
structure Backend where
  headResult : String → String → Except String Nat
  deleteResult : String → String → Except String Unit
  putTaggingResult : String → String → List (String × String) → Except String Unit

/-- Observable effects of the handler, in program order: the three
backend calls (recorded when attempted, with the storage key used) and
the emission of one JSON log record to standard output. -/
inductive Effect where
  | headObj (bucket key : String)
  | deleteObj (bucket key : String)
  | putTagging (bucket key : String) (tagSet : List (String × String))
  | logJson (record : JVal)

/-- The `TagSet` written on the retained path (handler.py lines 55 to 62):
owner, ttl_days, uploaded_at, size_bytes, in source order. -/
def fourTagSet (uploaded_at : String) (size_bytes : Nat) : List (String × String) :=
  [("owner", "unknown"), ("ttl_days", "7"), ("uploaded_at", uploaded_at),
   ("size_bytes", toString size_bytes)]

/-- The log dictionary of the oversized path (handler.py lines 41 to 47). -/
def deletedLogRecord (bucket key : String) (size_bytes : Nat) : JVal :=
  .jobj [("action", .jstr "deleted"), ("bucket", .jstr bucket), ("key", .jstr key),
         ("size_bytes", .jnat size_bytes), ("reason", .jstr "exceeds 10 MB limit"),
         ("estimated_monthly_cost_usd", .jnum (pyRound6 (monthly_cost_usd size_bytes)))]

/-- The log dictionary of the retained path (handler.py lines 65 to 77). -/
def taggedLogRecord (bucket key : String) (size_bytes : Nat) (uploaded_at : String) : JVal :=
  .jobj [("action", .jstr "tagged"), ("bucket", .jstr bucket), ("key", .jstr key),
         ("size_bytes", .jnat size_bytes),
         ("tags", .jobj [("owner", .jstr "unknown"), ("ttl_days", .jstr "7"),
                         ("uploaded_at", .jstr uploaded_at),
                         ("size_bytes", .jstr (toString size_bytes))]),
         ("estimated_monthly_cost_usd", .jnum (pyRound6 (monthly_cost_usd size_bytes)))]

/-- The body of the loop of `lambda_handler` for one record: decode the
key, HEAD the object, then delete (oversized) or tag (retained), logging
either way; `now` is the wall-clock reading `datetime.now(timezone.utc)
.isoformat()` would give at this step.  Returns the effects performed in
order and, when a backend call fails, the error it raised; the failing
call appears in the trace as the attempt that raised. -/
def processRecord (B : Backend) (now : String) (r : S3Record) : List Effect × Option String :=
  let bucket := r.bucket
  let _key25 := key_line25 r.key
  let key := decoded_key r.key
  match B.headResult bucket key with
  | .error e => ([.headObj bucket key], some e)
  | .ok size_bytes =>
    if size_bytes > MAX_SIZE_BYTES then
      match B.deleteResult bucket key with
      | .error e => ([.headObj bucket key, .deleteObj bucket key], some e)
      | .ok _ => ([.headObj bucket key, .deleteObj bucket key,
                   .logJson (deletedLogRecord bucket key size_bytes)], none)
    else
      match B.putTaggingResult bucket key (fourTagSet now size_bytes) with
      | .error e => ([.headObj bucket key,
                      .putTagging bucket key (fourTagSet now size_bytes)], some e)
      | .ok _ => ([.headObj bucket key,
                   .putTagging bucket key (fourTagSet now size_bytes),
                   .logJson (taggedLogRecord bucket key size_bytes now)], none)

/-- `lambda_handler`: iterate over `event["Records"]` in order; an
uncaught failure at one record stops the batch there, keeping the
effects already performed.  `clock i` is the wall-clock reading at the
processing step of record `i`; `i` is the index of the first record. -/
def lambda_handler (B : Backend) (clock : Nat → String) :
    List S3Record → Nat → List Effect × Option String
  | [], _ => ([], none)
  | r :: rest, i =>
    let step := processRecord B (clock i) r
    match step.2 with
    | some e => (step.1, some e)
    | none =>
      (step.1 ++ (lambda_handler B clock rest (i + 1)).1,
       (lambda_handler B clock rest (i + 1)).2)

/-- Recognises a delete call in the trace. -/
def isDelete : Effect → Bool
  | .deleteObj _ _ => true
  | _ => false

/-- Recognises a tag-write call in the trace. -/
def isTagWrite : Effect → Bool
  | .putTagging _ _ _ => true
  | _ => false

/-- Recognises a storage mutation (delete or tag-write). -/
def isMutation (e : Effect) : Bool := isDelete e || isTagWrite e

/-- Recognises a log emission. -/
def isLogEff : Effect → Bool
  | .logJson _ => true
  | _ => false

/-- The storage key an effect addresses, `none` for a log emission. -/
def effectKey : Effect → Option String
  | .headObj _ k => some k
  | .deleteObj _ k => some k
  | .putTagging _ k _ => some k
  | .logJson _ => none

/-- The `action` field of a log record, when present and a string. -/
def actionOf : Effect → Option String
  | .logJson (.jobj fields) =>
    match fields.lookup "action" with
    | some (.jstr s) => some s
    | _ => none
  | _ => none

/-- The `estimated_monthly_cost_usd` field of a log record, when present. -/
def costOf : Effect → Option ℚ
  | .logJson (.jobj fields) =>
    match fields.lookup "estimated_monthly_cost_usd" with
    | some (.jnum q) => some q
    | _ => none
  | _ => none

/-- Terminal action label of a mutation: delete logs `deleted`, tag-write
logs `tagged`. -/
def mutationLabel : Effect → Option String
  | .deleteObj _ _ => some "deleted"
  | .putTagging _ _ _ => some "tagged"
  | _ => none

/-- Backend for concrete runs: `big.bin` is 15 MB, everything else is
5 MB, and all mutations succeed. -/
def demoBackend : Backend :=
  ⟨fun _ k => if k = "big.bin" then .ok (15 * 1024 * 1024) else .ok (5 * 1024 * 1024),
   fun _ _ => .ok (), fun _ _ _ => .ok ()⟩

/-- Backend for concrete runs where the metadata fetch of `missing.bin`
raises; everything else is a 5 MB object and all mutations succeed. -/
def failBackend : Backend :=
  ⟨fun _ k => if k = "missing.bin" then .error "NoSuchKey" else .ok (5 * 1024 * 1024),
   fun _ _ => .ok (), fun _ _ _ => .ok ()⟩

/-- Backend for concrete runs where the object sits exactly at the
10 MiB threshold. -/
def boundaryBackend : Backend :=
  ⟨fun _ _ => .ok (10 * 1024 * 1024), fun _ _ => .ok (), fun _ _ _ => .ok ()⟩

/-- A fixed wall clock for concrete runs. -/
def demoClock : Nat → String := fun _ => "2026-10-12T00:00:00+00:00"

/-- A 5 MB object record for concrete runs. -/
def rSmall : S3Record := ⟨"demo-bucket", "small.bin"⟩

/-- A 15 MB object record for concrete runs. -/
def rBig : S3Record := ⟨"demo-bucket", "big.bin"⟩

/-- A record whose metadata fetch fails under `failBackend`. -/
def rMissing : S3Record := ⟨"demo-bucket", "missing.bin"⟩

/-- The tag state of the store: the tag set attached to each
(bucket, key).  `put_object_tagging` has full-replace semantics (section
6 of the design: `replace_tags(bucket, key, tag_list)` replaces the whole
tag set), so a tag-write effect installs exactly its tag set; a delete
or a read leaves tags of other objects untouched. -/
def applyMutation (tags : String → String → List (String × String)) :
    Effect → String → String → List (String × String)
  | .putTagging b k ts => fun b2 k2 => if b2 = b ∧ k2 = k then ts else tags b2 k2
  | _ => tags

/-- Every backend call of one record addresses the key decoded on
line 27, whatever the backend answers. -/
lemma processRecord_keys (B : Backend) (now : String) (r : S3Record) :
    ((processRecord B now r).1.filterMap effectKey).all
      (fun k => k == decoded_key r.key) = true := by
  simp only [processRecord]
  split
  · simp [effectKey]
  · split
    · split <;> simp [effectKey]
    · split <;> simp [effectKey]

/-- Claim C1: once the size `s` of the object is fetched, the handler
issues a delete and no tag-write when `s` exceeds `MAX_SIZE_BYTES =
10 * 2 ^ 20`, and a tag-write and no delete when `s ≤ 10 * 2 ^ 20`;
the comparison is strict, so at `s = 10 * 2 ^ 20` the object is tagged. -/
theorem size_threshold_decides_action (B : Backend) (now : String) (r : S3Record) (s : Nat)
    (hhead : B.headResult r.bucket (decoded_key r.key) = .ok s) :
    MAX_SIZE_BYTES = 10 * 2 ^ 20 ∧
    (MAX_SIZE_BYTES < s →
      ((processRecord B now r).1.filter isDelete).length = 1 ∧
      ((processRecord B now r).1.filter isTagWrite).length = 0) ∧
    (s ≤ MAX_SIZE_BYTES →
      ((processRecord B now r).1.filter isTagWrite).length = 1 ∧
      ((processRecord B now r).1.filter isDelete).length = 0) := by
  refine ⟨by decide, fun hs => ?_, fun hs => ?_⟩ <;> simp only [processRecord, hhead]
  · rw [if_pos hs]
    cases hd : B.deleteResult r.bucket (decoded_key r.key) <;>
      simp [isDelete, isTagWrite]
  · rw [if_neg (by omega)]
    cases hp : B.putTaggingResult r.bucket (decoded_key r.key) (fourTagSet now s) <;>
      simp [isDelete, isTagWrite]

/-- Witness for C1 at the exact boundary: a 10 MiB object is tagged,
not deleted. -/
theorem size_threshold_decides_action_witness :
    boundaryBackend.headResult rSmall.bucket (decoded_key rSmall.key) = .ok (10 * 2 ^ 20) ∧
    (MAX_SIZE_BYTES = 10 * 2 ^ 20 ∧
     (MAX_SIZE_BYTES < 10 * 2 ^ 20 →
       ((processRecord boundaryBackend (demoClock 0) rSmall).1.filter isDelete).length = 1 ∧
       ((processRecord boundaryBackend (demoClock 0) rSmall).1.filter isTagWrite).length = 0) ∧
     (10 * 2 ^ 20 ≤ MAX_SIZE_BYTES →
       ((processRecord boundaryBackend (demoClock 0) rSmall).1.filter isTagWrite).length = 1 ∧
       ((processRecord boundaryBackend (demoClock 0) rSmall).1.filter isDelete).length = 0)) :=
  ⟨rfl, size_threshold_decides_action boundaryBackend (demoClock 0) rSmall (10 * 2 ^ 20) rfl⟩

/-- Claim C4: every backend call uses the percent-decoded key, in which
a plus sign stands for a space; `"a+b%20c"` decodes to `"a b c"`. -/
theorem transport_key_decoded (B : Backend) (now : String) (r : S3Record) :
    ((processRecord B now r).1.filterMap effectKey).all
      (fun k => k == decoded_key r.key) = true ∧
    decoded_key "a+b%20c" = "a b c" :=
  ⟨processRecord_keys B now r, by decide⟩

/-- Claim C10: the storage key is `unquote_plus` of the raw transport
key, applied exactly once: line 25 (`key_line25`, plus-to-space only) is
discarded by the reassignment on line 27, and decoded output is not
decoded again, so `"%2B"` yields `"+"` and `"%252B"` yields `"%2B"`,
while a second application would turn `"%252B"` into `"+"`. -/
theorem key_unquoted_exactly_once (B : Backend) (now : String) (r : S3Record) :
    ((processRecord B now r).1.filterMap effectKey).all
      (fun k => k == unquote_plus r.key) = true ∧
    decoded_key r.key = unquote_plus r.key ∧
    decoded_key "%2B" = "+" ∧
    decoded_key "%252B" = "%2B" ∧
    unquote_plus (unquote_plus "%252B") = "+" :=
  ⟨processRecord_keys B now r, rfl, by decide, by decide, by decide⟩

/-- Claim C5: a retained object receives exactly the four fixed tags,
with `uploaded_at` the clock reading of this step and `size_bytes` the
decimal string of the fetched size, and the write replaces the whole tag
set: whatever tag state held before, afterwards exactly these four tags
are on the object. -/
theorem retained_tagging_full_replace (B : Backend) (now : String) (r : S3Record) (s : Nat)
    (hhead : B.headResult r.bucket (decoded_key r.key) = .ok s)
    (hsize : s ≤ MAX_SIZE_BYTES) :
    (processRecord B now r).1.filter isTagWrite =
      [.putTagging r.bucket (decoded_key r.key) (fourTagSet now s)] ∧
    fourTagSet now s = [("owner", "unknown"), ("ttl_days", "7"),
      ("uploaded_at", now), ("size_bytes", toString s)] ∧
    ∀ T, applyMutation T (.putTagging r.bucket (decoded_key r.key) (fourTagSet now s))
      r.bucket (decoded_key r.key) = fourTagSet now s := by
  refine ⟨?_, rfl, fun T => by simp [applyMutation]⟩
  simp only [processRecord, hhead]
  rw [if_neg (by omega)]
  cases hp : B.putTaggingResult r.bucket (decoded_key r.key) (fourTagSet now s) <;>
    simp [isTagWrite]

/-- Witness for C5: the 5 MB object of the demo backend is tagged with
exactly the four fixed tags, replacing any pre-existing tag state. -/
theorem retained_tagging_full_replace_witness :
    demoBackend.headResult rSmall.bucket (decoded_key rSmall.key) = .ok (5 * 1024 * 1024) ∧
    5 * 1024 * 1024 ≤ MAX_SIZE_BYTES ∧
    ((processRecord demoBackend (demoClock 0) rSmall).1.filter isTagWrite =
      [.putTagging rSmall.bucket (decoded_key rSmall.key)
        (fourTagSet (demoClock 0) (5 * 1024 * 1024))] ∧
     fourTagSet (demoClock 0) (5 * 1024 * 1024) = [("owner", "unknown"), ("ttl_days", "7"),
       ("uploaded_at", demoClock 0), ("size_bytes", toString (5 * 1024 * 1024))] ∧
     ∀ T, applyMutation T (.putTagging rSmall.bucket (decoded_key rSmall.key)
       (fourTagSet (demoClock 0) (5 * 1024 * 1024)))
       rSmall.bucket (decoded_key rSmall.key) = fourTagSet (demoClock 0) (5 * 1024 * 1024)) :=
  ⟨rfl, by decide,
   retained_tagging_full_replace demoBackend (demoClock 0) rSmall (5 * 1024 * 1024)
     rfl (by decide)⟩

/-- Rounding an integer changes nothing. -/
lemma roundHalfToEven_intCast (n : ℤ) : roundHalfToEven (n : ℚ) = n := by
  unfold roundHalfToEven ratFloor
  norm_num [Rat.num_intCast, Rat.den_intCast, Int.fdiv_one]

/-- One GiB costs 0.023 dollars per month exactly. -/
lemma monthly_cost_one_gib : monthly_cost_usd 1073741824 = 23 / 1000 := by
  unfold monthly_cost_usd PRICE_PER_GB_MONTH
  norm_num

/-- The 1 GiB cost is unchanged by the log-boundary rounding. -/
lemma pyRound6_one_gib : pyRound6 (monthly_cost_usd 1073741824) = 23 / 1000 := by
  rw [monthly_cost_one_gib]
  unfold pyRound6
  have h1 : (23 / 1000 : ℚ) * 1000000 = ((23000 : ℤ) : ℚ) := by norm_num
  rw [h1, roundHalfToEven_intCast]
  norm_num

/-- Claim C2: a record processed to completion performs exactly one
storage mutation (a delete or a tag-write, never both, never neither)
and emits exactly one log record, whose `action` field names the
mutation performed. -/
theorem one_mutation_one_log (B : Backend) (now : String) (r : S3Record)
    (tr : List Effect) (hrun : processRecord B now r = (tr, none)) :
    ∃ m l, tr.filter isMutation = [m] ∧ tr.filter isLogEff = [l] ∧
      actionOf l = mutationLabel m ∧ (mutationLabel m).isSome = true := by
  simp only [processRecord] at hrun
  split at hrun
  · simp at hrun
  · split at hrun
    · split at hrun
      · simp at hrun
      · injection hrun with h1 h2
        subst h1
        exact ⟨_, _, rfl, rfl, rfl, rfl⟩
    · split at hrun
      · simp at hrun
      · injection hrun with h1 h2
        subst h1
        exact ⟨_, _, rfl, rfl, rfl, rfl⟩

/-- Witness for C2 on the retained demo record. -/
theorem one_mutation_one_log_witness :
    processRecord demoBackend (demoClock 0) rSmall =
      ((processRecord demoBackend (demoClock 0) rSmall).1, none) ∧
    ∃ m l, (processRecord demoBackend (demoClock 0) rSmall).1.filter isMutation = [m] ∧
      (processRecord demoBackend (demoClock 0) rSmall).1.filter isLogEff = [l] ∧
      actionOf l = mutationLabel m ∧ (mutationLabel m).isSome = true :=
  ⟨rfl, one_mutation_one_log demoBackend (demoClock 0) rSmall _ rfl⟩

/-- Claim C3: the monthly cost is the exact rational
`size_bytes / 2 ^ 30 * 0.023`; the only rounding, to six decimal places,
happens in the value placed in the log record, and a 1 GiB object logs
exactly 0.023. -/
theorem cost_rounded_only_at_log (B : Backend) (now : String) (r : S3Record)
    (tr : List Effect) (s : Nat)
    (hhead : B.headResult r.bucket (decoded_key r.key) = .ok s)
    (hrun : processRecord B now r = (tr, none)) :
    tr.filterMap costOf = [pyRound6 (monthly_cost_usd s)] ∧
    monthly_cost_usd s = (s : ℚ) / 2 ^ 30 * (23 / 1000) ∧
    pyRound6 (monthly_cost_usd 1073741824) = 23 / 1000 := by
  refine ⟨?_, by unfold monthly_cost_usd PRICE_PER_GB_MONTH; norm_num, pyRound6_one_gib⟩
  simp only [processRecord, hhead] at hrun
  split at hrun
  · split at hrun
    · simp at hrun
    · injection hrun with h1 h2
      subst h1
      rfl
  · split at hrun
    · simp at hrun
    · injection hrun with h1 h2
      subst h1
      rfl

/-- Witness for C3 on the retained demo record. -/
theorem cost_rounded_only_at_log_witness :
    demoBackend.headResult rSmall.bucket (decoded_key rSmall.key) = .ok (5 * 1024 * 1024) ∧
    processRecord demoBackend (demoClock 0) rSmall =
      ((processRecord demoBackend (demoClock 0) rSmall).1, none) ∧
    ((processRecord demoBackend (demoClock 0) rSmall).1.filterMap costOf =
      [pyRound6 (monthly_cost_usd (5 * 1024 * 1024))] ∧
     monthly_cost_usd (5 * 1024 * 1024) = ((5 * 1024 * 1024 : Nat) : ℚ) / 2 ^ 30 * (23 / 1000) ∧
     pyRound6 (monthly_cost_usd 1073741824) = 23 / 1000) :=
  ⟨rfl, rfl, cost_rounded_only_at_log demoBackend (demoClock 0) rSmall _ (5 * 1024 * 1024)
    rfl rfl⟩

/-- Claim C6: the log record of an oversized record holds exactly
action, bucket, decoded key, size_bytes, the fixed reason, and the
rounded cost; the log record of a retained record holds exactly action,
bucket, decoded key, size_bytes, the four written tags as a mapping with
the same `uploaded_at` that was written, and the rounded cost.  The
`Effect.logJson` constructor is the model of `log`, which prints the
record as JSON to the standard output of the process. -/
theorem log_record_contents (B : Backend) (now : String) (r : S3Record)
    (tr : List Effect) (s : Nat)
    (hhead : B.headResult r.bucket (decoded_key r.key) = .ok s)
    (hrun : processRecord B now r = (tr, none)) :
    (MAX_SIZE_BYTES < s →
      tr.filter isLogEff = [.logJson (.jobj
        [("action", .jstr "deleted"), ("bucket", .jstr r.bucket),
         ("key", .jstr (decoded_key r.key)), ("size_bytes", .jnat s),
         ("reason", .jstr "exceeds 10 MB limit"),
         ("estimated_monthly_cost_usd", .jnum (pyRound6 (monthly_cost_usd s)))])]) ∧
    (s ≤ MAX_SIZE_BYTES →
      tr.filter isLogEff = [.logJson (.jobj
        [("action", .jstr "tagged"), ("bucket", .jstr r.bucket),
         ("key", .jstr (decoded_key r.key)), ("size_bytes", .jnat s),
         ("tags", .jobj [("owner", .jstr "unknown"), ("ttl_days", .jstr "7"),
            ("uploaded_at", .jstr now), ("size_bytes", .jstr (toString s))]),
         ("estimated_monthly_cost_usd", .jnum (pyRound6 (monthly_cost_usd s)))])] ∧
      tr.filter isTagWrite = [.putTagging r.bucket (decoded_key r.key) (fourTagSet now s)]) := by
  constructor
  · intro hs
    simp only [processRecord, hhead] at hrun
    rw [if_pos hs] at hrun
    split at hrun
    · simp at hrun
    · injection hrun with h1 h2
      subst h1
      rfl
  · intro hs
    simp only [processRecord, hhead] at hrun
    rw [if_neg (by omega)] at hrun
    split at hrun
    · simp at hrun
    · injection hrun with h1 h2
      subst h1
      exact ⟨rfl, rfl⟩

/-- Witness for C6 on the retained demo record. -/
theorem log_record_contents_witness :
    demoBackend.headResult rSmall.bucket (decoded_key rSmall.key) = .ok (5 * 1024 * 1024) ∧
    processRecord demoBackend (demoClock 0) rSmall =
      ((processRecord demoBackend (demoClock 0) rSmall).1, none) ∧
    ((MAX_SIZE_BYTES < 5 * 1024 * 1024 →
      (processRecord demoBackend (demoClock 0) rSmall).1.filter isLogEff = [.logJson (.jobj
        [("action", .jstr "deleted"), ("bucket", .jstr rSmall.bucket),
         ("key", .jstr (decoded_key rSmall.key)), ("size_bytes", .jnat (5 * 1024 * 1024)),
         ("reason", .jstr "exceeds 10 MB limit"),
         ("estimated_monthly_cost_usd",
          .jnum (pyRound6 (monthly_cost_usd (5 * 1024 * 1024))))])]) ∧
     (5 * 1024 * 1024 ≤ MAX_SIZE_BYTES →
      (processRecord demoBackend (demoClock 0) rSmall).1.filter isLogEff = [.logJson (.jobj
        [("action", .jstr "tagged"), ("bucket", .jstr rSmall.bucket),
         ("key", .jstr (decoded_key rSmall.key)), ("size_bytes", .jnat (5 * 1024 * 1024)),
         ("tags", .jobj [("owner", .jstr "unknown"), ("ttl_days", .jstr "7"),
            ("uploaded_at", .jstr (demoClock 0)),
            ("size_bytes", .jstr (toString (5 * 1024 * 1024)))]),
         ("estimated_monthly_cost_usd",
          .jnum (pyRound6 (monthly_cost_usd (5 * 1024 * 1024))))])] ∧
      (processRecord demoBackend (demoClock 0) rSmall).1.filter isTagWrite =
        [.putTagging rSmall.bucket (decoded_key rSmall.key)
          (fourTagSet (demoClock 0) (5 * 1024 * 1024))])) :=
  ⟨rfl, rfl, log_record_contents demoBackend (demoClock 0) rSmall _ (5 * 1024 * 1024) rfl rfl⟩

/-- A record whose processing raised has emitted no log record. -/
lemma processRecord_failed_no_log (B : Backend) (now : String) (r : S3Record) (e : String)
    (hfail : (processRecord B now r).2 = some e) :
    (processRecord B now r).1.filter isLogEff = [] := by
  revert hfail
  simp only [processRecord]
  split
  · intro h
    rfl
  · split
    · split
      · intro h
        rfl
      · intro h
        simp at h
    · split
      · intro h
        rfl
      · intro h
        simp at h

/-- Running a batch that starts with fully completed records appends the
run of the remaining records, with the clock index advanced past them. -/
lemma lambda_handler_append (B : Backend) (clock : Nat → String) (rest : List S3Record) :
    ∀ (pre : List S3Record) (i : Nat) (trP : List Effect),
      lambda_handler B clock pre i = (trP, none) →
      lambda_handler B clock (pre ++ rest) i =
        (trP ++ (lambda_handler B clock rest (i + pre.length)).1,
         (lambda_handler B clock rest (i + pre.length)).2) := by
  intro pre
  induction pre with
  | nil =>
    intro i trP h
    injection h with h1 h2
    subst h1
    simp [lambda_handler]
  | cons r pre ih =>
    intro i trP h
    simp only [lambda_handler, List.cons_append, List.length_cons] at h ⊢
    cases hstep : (processRecord B (clock i) r).2 with
    | some e =>
      rw [hstep] at h
      have h' : ((processRecord B (clock i) r).1, some e) = (trP, none) := h
      injection h' with h1 h2
      exact absurd h2 (by simp)
    | none =>
      rw [hstep] at h
      have h' : ((processRecord B (clock i) r).1 ++ (lambda_handler B clock pre (i + 1)).1,
          (lambda_handler B clock pre (i + 1)).2) = (trP, none) := h
      injection h' with h1 h2
      have hpre : lambda_handler B clock pre (i + 1) =
          ((lambda_handler B clock pre (i + 1)).1, none) := by rw [← h2]
      have hmain := ih (i + 1) ((lambda_handler B clock pre (i + 1)).1) hpre
      show ((processRecord B (clock i) r).1 ++ (lambda_handler B clock (pre ++ rest) (i + 1)).1,
          (lambda_handler B clock (pre ++ rest) (i + 1)).2) =
        (trP ++ (lambda_handler B clock rest (i + (pre.length + 1))).1,
         (lambda_handler B clock rest (i + (pre.length + 1))).2)
      rw [hmain]
      have hidx : i + 1 + pre.length = i + (pre.length + 1) := by omega
      rw [hidx]
      subst h1
      simp [List.append_assoc]

/-- Claim C7: if the record after `pre` raises at some backend call, the
batch run stops there: the final trace is the completed traces of `pre`
followed by the partial trace of the failing record, the error
propagates, the failing record logs nothing, and no record after it
contributes any effect. -/
theorem failure_aborts_batch (B : Backend) (clock : Nat → String)
    (pre post : List S3Record) (r : S3Record) (trP : List Effect) (e : String)
    (hpre : lambda_handler B clock pre 0 = (trP, none))
    (hfail : (processRecord B (clock pre.length) r).2 = some e) :
    lambda_handler B clock (pre ++ r :: post) 0 =
      (trP ++ (processRecord B (clock pre.length) r).1, some e) ∧
    (processRecord B (clock pre.length) r).1.filter isLogEff = [] := by
  refine ⟨?_, processRecord_failed_no_log B (clock pre.length) r e hfail⟩
  rw [lambda_handler_append B clock (r :: post) pre 0 trP hpre]
  simp only [lambda_handler, Nat.zero_add]
  rw [hfail]

/-- Witness for C7: in a three-record batch whose middle record fails at
the metadata fetch, the first record completes, the failure propagates,
and the third record is never processed. -/
theorem failure_aborts_batch_witness :
    lambda_handler failBackend demoClock [rSmall] 0 =
      ((lambda_handler failBackend demoClock [rSmall] 0).1, none) ∧
    (processRecord failBackend (demoClock [rSmall].length) rMissing).2 = some "NoSuchKey" ∧
    (lambda_handler failBackend demoClock ([rSmall] ++ rMissing :: [rBig]) 0 =
      ((lambda_handler failBackend demoClock [rSmall] 0).1 ++
        (processRecord failBackend (demoClock [rSmall].length) rMissing).1, some "NoSuchKey") ∧
     (processRecord failBackend (demoClock [rSmall].length) rMissing).1.filter isLogEff = []) :=
  ⟨rfl, rfl,
   failure_aborts_batch failBackend demoClock [rSmall] [rBig] rMissing _ "NoSuchKey" rfl rfl⟩

/-- Claim C8: the batch of a 5 MB record followed by a 15 MB record
completes with exactly this trace: HEAD, tag-write and log for the first
record, then HEAD, delete and log for the second — one tag-write, one
delete, two log records, in input order. -/
theorem five_and_fifteen_mb_batch :
    lambda_handler demoBackend demoClock [rSmall, rBig] 0 =
      ([.headObj "demo-bucket" "small.bin",
        .putTagging "demo-bucket" "small.bin" (fourTagSet (demoClock 0) (5 * 1024 * 1024)),
        .logJson (taggedLogRecord "demo-bucket" "small.bin" (5 * 1024 * 1024) (demoClock 0)),
        .headObj "demo-bucket" "big.bin",
        .deleteObj "demo-bucket" "big.bin",
        .logJson (deletedLogRecord "demo-bucket" "big.bin" (15 * 1024 * 1024))], none) ∧
    ((lambda_handler demoBackend demoClock [rSmall, rBig] 0).1.filter isTagWrite).length = 1 ∧
    ((lambda_handler demoBackend demoClock [rSmall, rBig] 0).1.filter isDelete).length = 1 ∧
    ((lambda_handler demoBackend demoClock [rSmall, rBig] 0).1.filter isLogEff).length = 2 :=
  ⟨rfl, rfl, rfl, rfl⟩

/-- A batch of one record, with the clock pinned to one reading. -/
lemma lambda_handler_singleton (B : Backend) (c : Nat → String) (r : S3Record) :
    (lambda_handler B c [r] 0).1 = (processRecord B (c 0) r).1 := by
  simp only [lambda_handler]
  cases hstep : (processRecord B (c 0) r).2 with
  | none => simp
  | some e => rfl

/-- A fully completed batch run is the concatenation of the runs of its
records as singleton batches, each under the clock reading of its own
step. -/
lemma lambda_handler_decomposes (B : Backend) (clock : Nat → String) :
    ∀ (rs : List S3Record) (i : Nat), (lambda_handler B clock rs i).2 = none →
      (lambda_handler B clock rs i).1 =
        (List.zipWith (fun r j => (lambda_handler B (fun _ => clock j) [r] 0).1)
          rs (List.range' i rs.length)).flatten := by
  intro rs
  induction rs with
  | nil =>
    intro i h
    rfl
  | cons r rest ih =>
    intro i h
    simp only [lambda_handler, List.length_cons] at h ⊢
    cases hstep : (processRecord B (clock i) r).2 with
    | some e =>
      rw [hstep] at h
      have h' : some e = none := h
      exact absurd h' (by simp)
    | none =>
      rw [hstep] at h
      have h2 : (lambda_handler B clock rest (i + 1)).2 = none := h
      show (processRecord B (clock i) r).1 ++ (lambda_handler B clock rest (i + 1)).1 =
        (List.zipWith (fun r j => (lambda_handler B (fun _ => clock j) [r] 0).1)
          (r :: rest) (List.range' i (rest.length + 1))).flatten
      simp only [List.range'_succ, List.zipWith_cons_cons, List.flatten_cons,
        lambda_handler_singleton, ih (i + 1) h2]

/-- Claim C9: when a batch completes, what each record contributes to
the trace is exactly what processing it alone would produce, given the
same backend and the clock reading of its own step; records do not
influence one another. -/
theorem batch_records_independent (B : Backend) (clock : Nat → String) (rs : List S3Record)
    (h : (lambda_handler B clock rs 0).2 = none) :
    (lambda_handler B clock rs 0).1 =
      (List.zipWith (fun r j => (lambda_handler B (fun _ => clock j) [r] 0).1)
        rs (List.range rs.length)).flatten := by
  rw [List.range_eq_range']
  exact lambda_handler_decomposes B clock rs 0 h

/-- Witness for C9 on the two-record demo batch. -/
theorem batch_records_independent_witness :
    (lambda_handler demoBackend demoClock [rSmall, rBig] 0).2 = none ∧
    (lambda_handler demoBackend demoClock [rSmall, rBig] 0).1 =
      (List.zipWith (fun r j => (lambda_handler demoBackend (fun _ => demoClock j) [r] 0).1)
        [rSmall, rBig] (List.range [rSmall, rBig].length)).flatten :=
  ⟨rfl, batch_records_independent demoBackend demoClock [rSmall, rBig] rfl⟩

end S3Checker
